import Mathlib

/-!
# ijengine: event pipeline, collision engine and kernel binding

A shallow embedding of `src/src/engine.cpp` (with `src/include/engine.h`).

* Pointers (`Collidable *`, `EventsTranslator *`, `GameEventsListener *`) are natural
  numbers, `nullptr` is `0`.
* `std::list<T>` is `List T`; `push_back` appends at the end, `remove(v)` erases every
  element equal to `v`.
* Virtual calls on registered objects (`bounding_box`, `hit_boxes`, `translate`,
  `on_event`) are read from an environment; calls of `on_collision` and `on_event`
  are recorded in a log in the order in which they are made.
* Calling a method through a null pointer is a fault (`Fault.null_dereference`).
* During one pass the callbacks are taken not to change the registries nor what
  `bounding_box` and `hit_boxes` return; listeners may change their own state, which
  is threaded through `on_event`.
* `rectangle.h`, `game_event.h`, `os.h` and `lib.h` are not among the sources: the
  rectangle operations are modelled from the specification, the element type of the
  translated events from its use in `dispatch_pending_events`, and the operating
  system calls are fields of `binding.Host`.
-/

namespace ijengine

/-- Model of a C++ object pointer: an address, `0` being `nullptr`. -/
abbrev Ptr := Nat

/-- The null pointer. -/
def nullptr : Ptr := 0

/-- Failure of a call made through a null pointer. -/
inductive Fault where
  | null_dereference
  deriving DecidableEq, Repr

deriving instance DecidableEq for Except

/-! ## Geometry (`rectangle.h`, not under `src/`) -/

/-- Modelled from the spec: the class `Rectangle` of `rectangle.h`, which is missing from
the sources. The constructor is used as `Rectangle(0, 0, 0, 0)` in `engine.cpp`; the
spec's example fixes the four numbers as `(x, y, w, h)` with `(x, y)` the corner of
least coordinates. -/
structure Rectangle where
  x : Int
  y : Int
  w : Int
  h : Int
  deriving DecidableEq, Repr

namespace Rectangle

/-- Modelled from the spec: `Rectangle::area()`, missing from the sources; the area of an
axis-aligned rectangle of width `w` and height `h`. -/
def area (r : Rectangle) : Int := r.w * r.h

/-- Modelled from the spec: `Rectangle::intersection`, missing from the sources. The
overlap of two axis-aligned rectangles; two rectangles that do not overlap give a
rectangle of area zero. -/
def intersection (r s : Rectangle) : Rectangle :=
  let left := max r.x s.x
  let top := max r.y s.y
  let right := min (r.x + r.w) (s.x + s.w)
  let bottom := min (r.y + r.h) (s.y + s.h)
  if left < right ∧ top < bottom then
    Rectangle.mk left top (right - left) (bottom - top)
  else
    Rectangle.mk 0 0 0 0

end Rectangle

/-! ## Collision engine (`namespace physics`) -/

namespace physics

/-- The enumeration `Mode` of `engine.h`. -/
inductive Mode where
  | ONE_TO_ALL
  | ALL_TO_ALL
  | NONE
  deriving DecidableEq, Repr

/-- The virtual interface of `Collidable` as the engine reads it: what
`c->bounding_box()` and `c->hit_boxes()` return for the object at address `c`. -/
structure World where
  bounding_box : Ptr → Rectangle
  hit_boxes : Ptr → List Rectangle

/-- One call `receiver->on_collision(other, rect)`. -/
structure Callback where
  receiver : Ptr
  other : Ptr
  rect : Rectangle
  deriving DecidableEq, Repr

/-- The three file-level statics of `namespace physics`. -/
structure State where
  target : Ptr
  objects : List Ptr
  collisions_mode : Mode
  deriving DecidableEq, Repr

/-- The values the statics are initialised with. -/
def initial : State :=
  { target := nullptr, objects := [], collisions_mode := Mode.ALL_TO_ALL }

/-- `physics::register_object`. -/
def register_object (c : Ptr) (s : State) : State :=
  if c ≠ nullptr then { s with objects := s.objects ++ [c] } else s

/-- `physics::unregister_object`: `objects.remove(c)`, then the target is reset when it
is `c`. -/
def unregister_object (c : Ptr) (s : State) : State :=
  let s1 := { s with objects := s.objects.filter (fun o => o ≠ c) }
  if s1.target = c then { s1 with target := nullptr } else s1

/-- `physics::set_colision_mode` (declared as `set_collision_mode` in `engine.h`, with
`c` defaulting to `nullptr`). -/
def set_colision_mode (mode : Mode) (c : Ptr) (s : State) : State :=
  let s1 := { s with collisions_mode := mode }
  if c ≠ nullptr ∧ mode = Mode.ONE_TO_ALL then { s1 with target := c } else s1

/-- The inner loop of `collision`: the first hit box `hbB` whose intersection with `hbA`
has positive area. -/
def first_hit_inner (hbA : Rectangle) : List Rectangle → Option Rectangle
  | [] => none
  | hbB :: rest =>
    let t := hbA.intersection hbB
    if t.area > 0 then some t else first_hit_inner hbA rest

/-- The nested loops of `collision`, `a`'s hit boxes outside and `b`'s inside. -/
def first_hit : List Rectangle → List Rectangle → Option Rectangle
  | [], _ => none
  | hbA :: rest, hbsB =>
    match first_hit_inner hbA hbsB with
    | some t => some t
    | none => first_hit rest hbsB

/-- `physics::collision`. Both pointers are dereferenced by the first two statements
(`a->bounding_box()`, `b->bounding_box()`), which is a fault when one is null. -/
def collision (w : World) (a b : Ptr) : Except Fault Rectangle :=
  if a = nullptr ∨ b = nullptr then Except.error Fault.null_dereference
  else
    let bbA := w.bounding_box a
    let bbB := w.bounding_box b
    let r := bbA.intersection bbB
    if r.area = 0 then Except.ok r
    else
      match first_hit (w.hit_boxes a) (w.hit_boxes b) with
      | some t => Except.ok t
      | none => Except.ok (Rectangle.mk 0 0 0 0)

/-- The loop of the `ONE_TO_ALL` case of `do_collisions` over the objects left to
visit; the result is the log of the callbacks made. -/
def one_to_all (w : World) (target : Ptr) : List Ptr → Except Fault (List Callback)
  | [] => Except.ok []
  | obj :: rest =>
    if obj = target then one_to_all w target rest
    else
      match collision w target obj with
      | Except.error e => Except.error e
      | Except.ok r =>
        let calls :=
          if r.area > 0 then [Callback.mk target obj r, Callback.mk obj target r] else []
        match one_to_all w target rest with
        | Except.error e => Except.error e
        | Except.ok log => Except.ok (calls ++ log)

/-- The inner loop of the `ALL_TO_ALL` case, for a fixed `a`. -/
def all_to_all_inner (w : World) (a : Ptr) : List Ptr → Except Fault (List Callback)
  | [] => Except.ok []
  | b :: rest =>
    if a = b then all_to_all_inner w a rest
    else
      match collision w a b with
      | Except.error e => Except.error e
      | Except.ok r =>
        let calls :=
          if r.area > 0 then [Callback.mk a b r, Callback.mk b a r] else []
        match all_to_all_inner w a rest with
        | Except.error e => Except.error e
        | Except.ok log => Except.ok (calls ++ log)

/-- The outer loop of the `ALL_TO_ALL` case; `objects` is the whole registry, the
second list the objects left to visit as `a`. -/
def all_to_all (w : World) (objects : List Ptr) : List Ptr → Except Fault (List Callback)
  | [] => Except.ok []
  | a :: rest =>
    match all_to_all_inner w a objects with
    | Except.error e => Except.error e
    | Except.ok log1 =>
      match all_to_all w objects rest with
      | Except.error e => Except.error e
      | Except.ok log2 => Except.ok (log1 ++ log2)

/-- `physics::do_collisions`: the log of `on_collision` calls of one pass. -/
def do_collisions (w : World) (s : State) : Except Fault (List Callback) :=
  match s.collisions_mode with
  | Mode.ONE_TO_ALL => one_to_all w s.target s.objects
  | Mode.ALL_TO_ALL => all_to_all w s.objects s.objects
  | Mode.NONE => Except.ok []

end physics

/-! ## Event pipeline (`namespace event`) -/

namespace event

/-- The element type of the list a translator returns (`game_event.h` is not under
`src/`): a pair whose `first` is the timestamp and whose `second` is the serialised
event, as `GameEvent::deserialize(event.second, event.first)` reads it. -/
abbrev game_event_t := Nat × String

/-- The call `operator<` of `std::pair`: lexicographic on `first`, then `second`. -/
def game_event_lt (a b : game_event_t) : Bool :=
  decide (a.1 < b.1) || (!decide (b.1 < a.1) && decide (a.2 < b.2))

/-- Inner walk of `std::list::merge`: the head `x` of the destination list is fixed,
`k` merges the rest of the destination with what is left of the argument. -/
def merge_aux {α : Type} (lt : α → α → Bool) (x : α) (k : List α → List α) :
    List α → List α
  | [] => x :: k []
  | y :: ys => if lt y x then y :: merge_aux lt x k ys else x :: k (y :: ys)

/-- The call `dst.merge(src)` of `std::list`: while both lists have elements, the head
of `src` is moved in front of the head of `dst` when it compares less, otherwise the
walk of `dst` advances; what is left of `src` goes to the end. -/
def list_merge {α : Type} (lt : α → α → Bool) : List α → List α → List α
  | [], src => src
  | x :: dst, src => merge_aux lt x (list_merge lt dst) src

/-- What the pipeline calls on its collaborators: the kernel's `pending_events`, a
translator's `translate` (which receives the batch by reference: the result holds the
events produced and the batch as the call leaves it), `GameEvent::deserialize`, and a
listener's `on_event` acting on the state `σ` of the listeners. -/
structure Env (Raw GE σ : Type) where
  pending_events : Nat → List Raw
  translate : Ptr → List Raw → List game_event_t × List Raw
  deserialize : String → Nat → GE
  on_event : Ptr → GE → σ → Bool × σ

/-- The two registries of `namespace event`. -/
structure State where
  translators : List Ptr
  listeners : List Ptr
  deriving DecidableEq, Repr

/-- `event::register_translator`. -/
def register_translator (translator : Ptr) (s : State) : State :=
  if translator ≠ nullptr then { s with translators := s.translators ++ [translator] }
  else s

/-- `event::unregister_translator`. -/
def unregister_translator (translator : Ptr) (s : State) : State :=
  if translator ≠ nullptr then
    { s with translators := s.translators.filter (fun t => t ≠ translator) }
  else s

/-- `event::register_listener`. -/
def register_listener (listener : Ptr) (s : State) : State :=
  if listener ≠ nullptr then { s with listeners := s.listeners ++ [listener] } else s

/-- `event::unregister_listener`. -/
def unregister_listener (listener : Ptr) (s : State) : State :=
  if listener ≠ nullptr then
    { s with listeners := s.listeners.filter (fun l => l ≠ listener) }
  else s

/-- The translator loop of `dispatch_pending_events` (lines 98-105): `events` is the
batch, `game_events` the list built so far. -/
def translate_loop {Raw GE σ : Type} (env : Env Raw GE σ) :
    List Ptr → List Raw → List game_event_t → List game_event_t
  | [], _, game_events => game_events
  | translator :: rest, events, game_events =>
    let out := env.translate translator events
    let merged := list_merge game_event_lt game_events out.1
    if out.2.isEmpty then merged else translate_loop env rest out.2 merged

/-- One call `listener->on_event(event)` with what it returned. -/
structure Delivery (GE : Type) where
  listener : Ptr
  event : GE
  handled : Bool
  deriving DecidableEq, Repr

/-- The inner loop over the listeners for one game event (lines 112-114). -/
def deliver {Raw GE σ : Type} (env : Env Raw GE σ) (game_event : GE) :
    List Ptr → σ → List (Delivery GE) × σ
  | [], st => ([], st)
  | listener :: rest, st =>
    let r := env.on_event listener game_event st
    if r.1 then ([Delivery.mk listener game_event true], r.2)
    else
      let after := deliver env game_event rest r.2
      (Delivery.mk listener game_event false :: after.1, after.2)

/-- The loop over the game events (lines 107-115). -/
def dispatch_loop {Raw GE σ : Type} (env : Env Raw GE σ) (listeners : List Ptr) :
    List game_event_t → σ → List (Delivery GE) × σ
  | [], st => ([], st)
  | event :: rest, st =>
    let game_event := env.deserialize event.2 event.1
    let here := deliver env game_event listeners st
    let after := dispatch_loop env listeners rest here.2
    (here.1 ++ after.1, after.2)

/-- `event::dispatch_pending_events`: the log of the `on_event` calls and the state
of the listeners afterwards. -/
def dispatch_pending_events {Raw GE σ : Type} (env : Env Raw GE σ) (s : State)
    (now : Nat) (st : σ) : List (Delivery GE) × σ :=
  let events := env.pending_events now
  if events.isEmpty then ([], st)
  else
    let game_events := translate_loop env s.translators events []
    dispatch_loop env s.listeners game_events st

end event

/-! ## Kernel binding (`Engine::Engine`) -/

namespace binding

/-- The class `Exception` with the text it is built from. -/
structure Exception where
  message : String
  deriving DecidableEq, Repr

/-- A call the constructor makes outside `engine.cpp`. -/
inductive Call where
  | list_files (dir : String)
  | load_lib (path : String)
  | symbol (name : String)
  | create
  deriving DecidableEq, Repr

/-- The collaborators of the constructor (`os.h`, `lib.h`, the library's factory);
`none` is a null result. -/
structure Host where
  list_files : String → List String
  load_lib : String → Option Nat
  symbol : Nat → String → Option Nat
  create : Nat → Option Nat

/-- Whether `pat` starts the text `s`. -/
def starts_with : List Char → List Char → Bool
  | _, [] => true
  | [], _ :: _ => false
  | c :: cs, p :: ps => c == p && starts_with cs ps

/-- The call `s.find(pat)` of `std::string`: the first position at which `pat` occurs,
`none` for `string::npos`. -/
def find : List Char → List Char → Option Nat
  | [], pat => if starts_with [] pat then some 0 else none
  | c :: cs, pat =>
    if starts_with (c :: cs) pat then some 0 else (find cs pat).map (fun i => i + 1)

/-- The loop over `files` of the constructor: the value of `path` after it. -/
def select_path : List String → String
  | [] => ""
  | file :: rest =>
    if find file.data "kernel".data ≠ none then "libs/" ++ file else select_path rest

/-- What a constructed engine holds: the library and the kernel. -/
structure Bound where
  m_kernel_lib : Nat
  kernel : Nat
  deriving DecidableEq, Repr

/-- `Engine::Engine`: the calls made on the host, in order, and the outcome. -/
def Engine (host : Host) : List Call × Except Exception Bound :=
  let files := host.list_files "libs"
  let path := select_path files
  if path.length = 0 then
    ([Call.list_files "libs"], Except.error (Exception.mk "Kernel not found in libs dir"))
  else
    match host.load_lib path with
    | none =>
      ([Call.list_files "libs", Call.load_lib path],
        Except.error (Exception.mk "Can't load kernel lib"))
    | some lib =>
      match host.symbol lib "create_kernel" with
      | none =>
        ([Call.list_files "libs", Call.load_lib path, Call.symbol "create_kernel"],
          Except.error (Exception.mk "Invalid kernel: missing create_kernel()"))
      | some sym =>
        match host.create sym with
        | none =>
          ([Call.list_files "libs", Call.load_lib path, Call.symbol "create_kernel",
            Call.create], Except.error (Exception.mk "Can't create the kernel"))
        | some k =>
          ([Call.list_files "libs", Call.load_lib path, Call.symbol "create_kernel",
            Call.create], Except.ok (Bound.mk lib k))

end binding

/-! ## Auxiliary definitions used to state the properties -/

namespace physics

/-- The sentence of the specification on the narrow phase: among the intersections of
the pairs of `hit_boxes(A) × hit_boxes(B)`, taken with `A`'s hit boxes outside and
`B`'s inside, the first one of non-zero area. -/
def first_pair_intersection (hbsA hbsB : List Rectangle) : Option Rectangle :=
  (hbsA.flatMap (fun hA => hbsB.map (fun hB => hA.intersection hB))).find?
    (fun t => decide (t.area ≠ 0))

/-- The number of calls `receiver->on_collision(other, _)` in a log. -/
def calls_on (log : List Callback) (receiver other : Ptr) : Nat :=
  log.countP (fun c => decide (c.receiver = receiver ∧ c.other = other))

/-- A call of the registration interface of the collision engine. -/
inductive Op where
  | register (c : Ptr)
  | unregister (c : Ptr)
  | set_mode (mode : Mode) (c : Ptr)
  deriving DecidableEq, Repr

/-- The effect of one call. -/
def step (op : Op) (s : State) : State :=
  match op with
  | Op.register c => register_object c s
  | Op.unregister c => unregister_object c s
  | Op.set_mode mode c => set_colision_mode mode c s

/-- The state after a sequence of calls. -/
def run : List Op → State → State
  | [], s => s
  | op :: rest, s => run rest (step op s)

/-- The target, when there is one, is in the registry. -/
def target_registered (s : State) : Prop :=
  s.target ≠ nullptr → s.target ∈ s.objects

/-- A call that designates a target designates a registered object. -/
def designates_registered (op : Op) (s : State) : Bool :=
  match op with
  | Op.set_mode Mode.ONE_TO_ALL c => decide (c = nullptr ∨ c ∈ s.objects)
  | _ => true

/-- Every call of the sequence that designates a target designates an object that is
registered when the call is made. -/
def targets_registered : List Op → State → Bool
  | [], _ => true
  | op :: rest, s => designates_registered op s && targets_registered rest (step op s)

/-- Two overlapping squares `1` and `2` and a distant square `3`, each with its
bounding box as only hit box. -/
def three_squares : World :=
  { bounding_box := fun c =>
      if c = 1 then Rectangle.mk 0 0 10 10
      else if c = 2 then Rectangle.mk 5 5 10 10
      else Rectangle.mk 100 100 10 10
    hit_boxes := fun c =>
      if c = 1 then [Rectangle.mk 0 0 10 10]
      else if c = 2 then [Rectangle.mk 5 5 10 10]
      else [Rectangle.mk 100 100 10 10] }

/-- Two objects `1` and `2` whose bounding boxes are apart and whose hit boxes
coincide. -/
def stray_hit_boxes : World :=
  { bounding_box := fun c =>
      if c = 1 then Rectangle.mk 0 0 1 1 else Rectangle.mk 100 100 1 1
    hit_boxes := fun _ => [Rectangle.mk 10 10 5 5] }

end physics

namespace event

/-- Two translators over a one-element batch that they leave as it is: translator `1`
produces an event of timestamp 5, translator `2` an event of timestamp 3; no listener
handles anything. -/
def late_then_early : Env Nat (Nat × String) Unit :=
  { pending_events := fun _ => [0]
    translate := fun t B => if t = 1 then ([(5, "a")], B) else ([(3, "b")], B)
    deserialize := fun data timestamp => (timestamp, data)
    on_event := fun _ _ st => (false, st) }

/-- Two translators over a one-element batch that they leave as it is: translator `1`
produces an event of timestamp 3, translator `2` an event of timestamp 5. Listener `2`
handles the events of timestamp 3 and nothing else is handled; the state of the
listeners counts the calls of `on_event`. -/
def early_then_late : Env Nat (Nat × String) Nat :=
  { pending_events := fun _ => [0]
    translate := fun t B => if t = 1 then ([(3, "b")], B) else ([(5, "a")], B)
    deserialize := fun data timestamp => (timestamp, data)
    on_event := fun l e st => (decide (l = 2 ∧ e.1 = 3), st + 1) }

/-- The calls `on_event(e)` made when every listener of the list is called in turn,
none stopping the walk: each entry holds what `on_event` returns in the state left by
the calls before it. -/
def call_all {Raw GE σ : Type} (env : Env Raw GE σ) (e : GE) :
    List Ptr → σ → List (Delivery GE)
  | [], _ => []
  | l :: rest, st =>
    Delivery.mk l e (env.on_event l e st).1 :: call_all env e rest (env.on_event l e st).2

/-- The state of the listeners after `on_event(e)` has been called on each listener of
the list in turn. -/
def state_after {Raw GE σ : Type} (env : Env Raw GE σ) (e : GE) : List Ptr → σ → σ
  | [], st => st
  | l :: rest, st => state_after env e rest (env.on_event l e st).2

/-- The rule of the specification for listeners whose answer `h l e` depends on the
listener and the event only: `e` goes to the listeners in registration order up to and
including the first one that answers handled. -/
def served {GE : Type} (h : Ptr → GE → Bool) (e : GE) : List Ptr → List (Delivery GE)
  | [] => []
  | l :: rest =>
    if h l e then [Delivery.mk l e true] else Delivery.mk l e false :: served h e rest

/-- One translator that yields an event of timestamp 3 and then one of timestamp 5.
The state of the listeners is a flag and a counter. Listener `1` handles the event of
timestamp 3 when the flag is set; listener `2` handles an event when it has been
called before, and counts its calls; any other listener handles nothing. -/
def remembering_listener : Env Nat (Nat × String) (Bool × Nat) :=
  { pending_events := fun _ => [0]
    translate := fun _ B => ([(3, "b"), (5, "a")], B)
    deserialize := fun data timestamp => (timestamp, data)
    on_event := fun l e st =>
      if l = 1 then (st.1 && decide (e.1 = 3), st)
      else if l = 2 then (decide (0 < st.2), (st.1, st.2 + 1))
      else (false, st) }

end event

/-! ## Lemmas -/

namespace Rectangle

theorem area_intersection_nonneg (r s : Rectangle) : 0 ≤ (r.intersection s).area := by
  unfold intersection area
  simp only
  split
  · rename_i h
    exact mul_nonneg (sub_nonneg.mpr (le_of_lt h.1)) (sub_nonneg.mpr (le_of_lt h.2))
  · simp

end Rectangle

namespace physics

theorem first_hit_inner_eq_find (hbA : Rectangle) (hbsB : List Rectangle) :
    first_hit_inner hbA hbsB =
      (hbsB.map (fun hB => hbA.intersection hB)).find? (fun t => decide (t.area ≠ 0)) := by
  induction hbsB with
  | nil => rfl
  | cons hbB rest ih =>
    have hnn := Rectangle.area_intersection_nonneg hbA hbB
    by_cases hpos : (hbA.intersection hbB).area > 0
    · have hne : (hbA.intersection hbB).area ≠ 0 := by omega
      simp [first_hit_inner, hpos, hne]
    · have hz : (hbA.intersection hbB).area = 0 := by omega
      simp [first_hit_inner, hz, ih]

theorem first_hit_eq_first_pair_intersection (hbsA hbsB : List Rectangle) :
    first_hit hbsA hbsB = first_pair_intersection hbsA hbsB := by
  induction hbsA with
  | nil => rfl
  | cons hbA rest ih =>
    unfold first_pair_intersection at ih ⊢
    rw [first_hit, first_hit_inner_eq_find, List.flatMap_cons, List.find?_append, ← ih]
    cases (List.map (fun hB => hbA.intersection hB) hbsB).find?
      (fun t => decide (t.area ≠ 0)) <;> rfl

theorem first_hit_area_pos {hbsA hbsB : List Rectangle} {t : Rectangle}
    (h : first_hit hbsA hbsB = some t) : 0 < t.area := by
  rw [first_hit_eq_first_pair_intersection, first_pair_intersection] at h
  have h1 := List.find?_some h
  have h2 := List.mem_of_find?_eq_some h
  simp only [List.mem_flatMap, List.mem_map] at h2
  obtain ⟨hA, _, hB, _, rfl⟩ := h2
  have := Rectangle.area_intersection_nonneg hA hB
  simp at h1
  omega

theorem collision_area_nonneg {w : World} {a b : Ptr} {r : Rectangle}
    (h : collision w a b = Except.ok r) : 0 ≤ r.area := by
  unfold collision at h
  split at h
  · cases h
  · simp only at h
    split at h
    · rename_i hz
      cases h
      omega
    · split at h
      · rename_i t ht
        cases h
        exact le_of_lt (first_hit_area_pos ht)
      · cases h
        decide

theorem collision_of_nonnull (w : World) {a b : Ptr} (ha : a ≠ nullptr)
    (hb : b ≠ nullptr) :
    collision w a b =
      if ((w.bounding_box a).intersection (w.bounding_box b)).area = 0 then
        Except.ok ((w.bounding_box a).intersection (w.bounding_box b))
      else
        match first_hit (w.hit_boxes a) (w.hit_boxes b) with
        | some t => Except.ok t
        | none => Except.ok (Rectangle.mk 0 0 0 0) := by
  unfold collision
  simp [ha, hb]

theorem one_to_all_null_target (w : World) :
    ∀ (objs : List Ptr), objs ≠ [] → (∀ o ∈ objs, o ≠ nullptr) →
      one_to_all w nullptr objs = Except.error Fault.null_dereference := by
  intro objs hne hall
  cases objs with
  | nil => exact absurd rfl hne
  | cons o rest =>
    have ho : o ≠ nullptr := hall o (List.mem_cons_self _ _)
    simp [one_to_all, ho, collision]

theorem step_preserves_target_registered (op : Op) (s : State)
    (hop : designates_registered op s = true) (hs : target_registered s) :
    target_registered (step op s) := by
  cases op with
  | register c =>
    unfold target_registered at hs ⊢
    simp only [step, register_object]
    split
    · intro ht
      exact List.mem_append_left _ (hs ht)
    · exact hs
  | unregister c =>
    unfold target_registered at hs ⊢
    simp only [step, unregister_object]
    split
    · intro ht
      exact absurd rfl ht
    · rename_i hne
      intro ht
      simp only [List.mem_filter, decide_eq_true_eq]
      exact ⟨hs ht, hne⟩
  | set_mode mode c =>
    unfold target_registered at hs ⊢
    simp only [step, set_colision_mode]
    split
    · rename_i hc
      obtain ⟨hcn, hm⟩ := hc
      subst hm
      intro _
      simp only [designates_registered, decide_eq_true_eq] at hop
      rcases hop with h | h
      · exact absurd h hcn
      · exact h
    · exact hs

theorem run_preserves_target_registered :
    ∀ (ops : List Op) (s : State), targets_registered ops s = true →
      target_registered s → target_registered (run ops s) := by
  intro ops
  induction ops with
  | nil => intro s _ hs; exact hs
  | cons op rest ih =>
    intro s h hs
    simp only [targets_registered, Bool.and_eq_true] at h
    exact ih (step op s) h.2 (step_preserves_target_registered op s h.1 hs)

theorem perm_three_cases {A B C : Ptr} {l : List Ptr} (hAB : A ≠ B) (hAC : A ≠ C)
    (hBC : B ≠ C) (h : l.Perm [A, B, C]) :
    l = [A, B, C] ∨ l = [A, C, B] ∨ l = [B, A, C] ∨ l = [B, C, A] ∨ l = [C, A, B] ∨
      l = [C, B, A] := by
  have hlen := h.length_eq
  have hnd : l.Nodup := h.nodup_iff.mpr (by simp [hAB, hAC, hBC])
  rcases l with _ | ⟨a, _ | ⟨b, _ | ⟨c, _ | ⟨d, l⟩⟩⟩⟩ <;> simp at hlen
  have ha : a ∈ [A, B, C] := h.subset (by simp)
  have hb : b ∈ [A, B, C] := h.subset (by simp)
  have hc : c ∈ [A, B, C] := h.subset (by simp)
  simp only [List.mem_cons, List.mem_singleton, List.not_mem_nil, or_false] at ha hb hc
  simp only [List.nodup_cons, List.mem_cons, List.mem_singleton, List.not_mem_nil,
    or_false, not_or, List.nodup_nil, and_true, not_false_eq_true] at hnd
  obtain ⟨⟨hab, hac⟩, hbc⟩ := hnd
  rcases ha with rfl | rfl | rfl <;> rcases hb with rfl | rfl | rfl <;>
    rcases hc with rfl | rfl | rfl <;>
    first
      | exact absurd rfl hab
      | exact absurd rfl hac
      | exact absurd rfl hbc
      | simp

theorem one_to_all_three (w : World) (T X Y : Ptr) (r rY : Rectangle) (l : List Ptr)
    (hTX : T ≠ X) (hTY : T ≠ Y) (hXY : X ≠ Y) (hl : l.Perm [T, X, Y])
    (hr : collision w T X = Except.ok r) (hrpos : 0 < r.area)
    (hrY : collision w T Y = Except.ok rY) (hrYz : rY.area = 0) :
    one_to_all w T l = Except.ok [Callback.mk T X r, Callback.mk X T r] := by
  have hXT := hTX.symm
  have hYT := hTY.symm
  rcases perm_three_cases hTX hTY hXY hl with h | h | h | h | h | h <;> subst h <;>
    simp [one_to_all, hXT, hYT, hr, hrY, hrpos, hrYz]

theorem all_to_all_three (w : World) (A B C : Ptr) (rAB rBA rAC rCA rBC rCB : Rectangle)
    (l : List Ptr) (hAB : A ≠ B) (hAC : A ≠ C) (hBC : B ≠ C) (hl : l.Perm [A, B, C])
    (hab : collision w A B = Except.ok rAB) (habp : 0 < rAB.area)
    (hba : collision w B A = Except.ok rBA) (hbap : 0 < rBA.area)
    (hac : collision w A C = Except.ok rAC) (hacz : rAC.area = 0)
    (hca : collision w C A = Except.ok rCA) (hcaz : rCA.area = 0)
    (hbc : collision w B C = Except.ok rBC) (hbcz : rBC.area = 0)
    (hcb : collision w C B = Except.ok rCB) (hcbz : rCB.area = 0) :
    all_to_all w l l = Except.ok
        [Callback.mk A B rAB, Callback.mk B A rAB, Callback.mk B A rBA,
          Callback.mk A B rBA] ∨
      all_to_all w l l = Except.ok
        [Callback.mk B A rBA, Callback.mk A B rBA, Callback.mk A B rAB,
          Callback.mk B A rAB] := by
  have hBA := hAB.symm
  have hCA := hAC.symm
  have hCB := hBC.symm
  rcases perm_three_cases hAB hAC hBC hl with h | h | h | h | h | h <;> subst h <;>
    simp [all_to_all, all_to_all_inner, hAB, hAC, hBC, hBA, hCA, hCB, hab, hba, hac, hca,
      hbc, hcb, habp, hbap, hacz, hcaz, hbcz, hcbz]

end physics

namespace event

theorem list_merge_nil_right {α : Type} (lt : α → α → Bool) (xs : List α) :
    list_merge lt xs [] = xs := by
  induction xs with
  | nil => rfl
  | cons x xs ih => simp [list_merge, merge_aux, ih]

theorem list_merge_cons_cons {α : Type} (lt : α → α → Bool) (x y : α) (xs ys : List α) :
    list_merge lt (x :: xs) (y :: ys) =
      if lt y x then y :: list_merge lt (x :: xs) ys
      else x :: list_merge lt xs (y :: ys) := by
  simp [list_merge, merge_aux]

theorem list_merge_eq_append {α : Type} (lt : α → α → Bool) (xs ys : List α)
    (h : ∀ a ∈ xs, ∀ b ∈ ys, lt b a = false) : list_merge lt xs ys = xs ++ ys := by
  induction xs with
  | nil => rfl
  | cons x xs ih =>
    cases ys with
    | nil => simp [list_merge_nil_right]
    | cons y ys =>
      have hxy : lt y x = false := h x (List.mem_cons_self _ _) y (List.mem_cons_self _ _)
      rw [list_merge_cons_cons, hxy]
      simp only [Bool.false_eq_true, if_false, List.cons_append]
      rw [ih (fun a ha b hb => h a (List.mem_cons_of_mem _ ha) b hb)]

theorem translate_loop_eq_join {Raw GE σ : Type} (env : Env Raw GE σ) (B : List Raw)
    (hB : B ≠ []) :
    ∀ (ts : List Ptr) (acc : List game_event_t),
      (∀ t ∈ ts, (env.translate t B).2 = B) →
      List.Pairwise (fun xs ys => ∀ a ∈ xs, ∀ b ∈ ys, game_event_lt b a = false)
        (acc :: ts.map (fun t => (env.translate t B).1)) →
      translate_loop env ts B acc = acc ++ (ts.map (fun t => (env.translate t B).1)).flatten := by
  intro ts
  induction ts with
  | nil => intro acc _ _; simp [translate_loop]
  | cons t rest ih =>
    intro acc hkeep hsorted
    have hk : (env.translate t B).2 = B := hkeep t (List.mem_cons_self _ _)
    have hne : B.isEmpty = false := by
      cases B with
      | nil => exact absurd rfl hB
      | cons _ _ => rfl
    simp only [List.map_cons, List.pairwise_cons, List.mem_cons, forall_eq_or_imp,
      List.mem_map] at hsorted
    obtain ⟨⟨hacc_t, hacc_rest⟩, ht_rest, hrest⟩ := hsorted
    have hmerge : list_merge game_event_lt acc (env.translate t B).1 =
        acc ++ (env.translate t B).1 := list_merge_eq_append _ _ _ hacc_t
    simp only [translate_loop, hk, hne, Bool.false_eq_true, if_false, hmerge]
    rw [ih (acc ++ (env.translate t B).1) (fun u hu => hkeep u (List.mem_cons_of_mem _ hu))]
    · simp only [List.map_cons, List.flatten_cons, List.append_assoc]
    · simp only [List.pairwise_cons, List.mem_map]
      refine ⟨?_, hrest⟩
      intro ys hys a ha b hb
      rcases List.mem_append.mp ha with h | h
      · exact hacc_rest ys hys a h b hb
      · exact ht_rest ys hys a h b hb

theorem dispatch_loop_append {Raw GE σ : Type} (env : Env Raw GE σ) (ls : List Ptr) :
    ∀ (xs ys : List game_event_t) (st : σ),
      dispatch_loop env ls (xs ++ ys) st =
        ((dispatch_loop env ls xs st).1 ++
            (dispatch_loop env ls ys (dispatch_loop env ls xs st).2).1,
          (dispatch_loop env ls ys (dispatch_loop env ls xs st).2).2) := by
  intro xs
  induction xs with
  | nil => intro ys st; simp [dispatch_loop]
  | cons x xs ih =>
    intro ys st
    rw [List.cons_append]
    simp only [dispatch_loop]
    rw [ih]
    simp only [List.append_assoc]

theorem deliver_first_handler {Raw GE σ : Type} (env : Env Raw GE σ) (e : GE) :
    ∀ (ls : List Ptr) (st : σ),
      ∃ k, k ≤ ls.length ∧
        (deliver env e ls st).1 = (call_all env e ls st).take k ∧
        (deliver env e ls st).2 = state_after env e (ls.take k) st ∧
        (deliver env e ls st).1.map Delivery.listener = ls.take k ∧
        ((∃ j, k = j + 1 ∧
            (deliver env e ls st).1.map Delivery.handled =
              List.replicate j false ++ [true]) ∨
          (k = ls.length ∧
            (deliver env e ls st).1.map Delivery.handled = List.replicate k false)) := by
  intro ls
  induction ls with
  | nil =>
    intro st
    exact ⟨0, le_refl _, rfl, rfl, rfl, Or.inr ⟨rfl, rfl⟩⟩
  | cons l rest ih =>
    intro st
    by_cases hh : (env.on_event l e st).1 = true
    · refine ⟨1, by simp, ?_, ?_, ?_, Or.inl ⟨0, rfl, ?_⟩⟩ <;>
        simp [deliver, call_all, state_after, hh]
    · obtain ⟨k, hk, hlog, hst, hmap, hflags⟩ := ih (env.on_event l e st).2
      have hf : (env.on_event l e st).1 = false := by
        cases h : (env.on_event l e st).1 with
        | true => exact absurd h hh
        | false => rfl
      refine ⟨k + 1, by simpa using hk, ?_, ?_, ?_, ?_⟩
      · simp [deliver, call_all, hf, hlog]
      · simp [deliver, state_after, hf, hst]
      · simp [deliver, hf, hmap]
      · rcases hflags with ⟨j, hj, hfl⟩ | ⟨hkl, hfl⟩
        · refine Or.inl ⟨j + 1, by omega, ?_⟩
          simp [deliver, hf, hfl, List.replicate_succ]
        · refine Or.inr ⟨by simp [hkl], ?_⟩
          simp [deliver, hf, hfl, List.replicate_succ]

theorem deliver_eq_served {Raw GE σ : Type} (env : Env Raw GE σ) (h : Ptr → GE → Bool)
    (hh : ∀ l e st, (env.on_event l e st).1 = h l e) (e : GE) :
    ∀ (ls : List Ptr) (st : σ), (deliver env e ls st).1 = served h e ls := by
  intro ls
  induction ls with
  | nil => intro st; rfl
  | cons l rest ih =>
    intro st
    by_cases hl : h l e = true
    · simp [deliver, served, hh, hl]
    · simp [deliver, served, hh, hl, ih]

theorem dispatch_loop_eq_served {Raw GE σ : Type} (env : Env Raw GE σ)
    (h : Ptr → GE → Bool) (hh : ∀ l e st, (env.on_event l e st).1 = h l e)
    (ls : List Ptr) :
    ∀ (evs : List game_event_t) (st : σ),
      (dispatch_loop env ls evs st).1 =
        evs.flatMap (fun ev => served h (env.deserialize ev.2 ev.1) ls) := by
  intro evs
  induction evs with
  | nil => intro st; rfl
  | cons ev rest ih =>
    intro st
    simp only [dispatch_loop, List.flatMap_cons, deliver_eq_served env h hh, ih]

end event

namespace binding

theorem starts_with_spec : ∀ (s pat : List Char),
    starts_with s pat = true ↔ pat <+: s := by
  intro s
  induction s with
  | nil =>
    intro pat
    cases pat with
    | nil => simp [starts_with]
    | cons p ps => simp [starts_with]
  | cons c cs ih =>
    intro pat
    cases pat with
    | nil => simp [starts_with]
    | cons p ps =>
      simp only [starts_with, Bool.and_eq_true, beq_iff_eq, ih, List.cons_prefix_cons]
      constructor
      · rintro ⟨h1, h2⟩
        exact ⟨h1.symm, h2⟩
      · rintro ⟨h1, h2⟩
        exact ⟨h1.symm, h2⟩

theorem find_eq_none_iff : ∀ (s pat : List Char),
    find s pat = none ↔ ¬ pat <:+: s := by
  intro s
  induction s with
  | nil =>
    intro pat
    cases pat with
    | nil => simp [find, starts_with]
    | cons p ps => simp [find, starts_with]
  | cons c cs ih =>
    intro pat
    have hf : find (c :: cs) pat =
        if starts_with (c :: cs) pat then some 0
        else (find cs pat).map (fun i => i + 1) := rfl
    rw [List.infix_cons_iff, not_or, ← ih, ← starts_with_spec, hf]
    by_cases h : starts_with (c :: cs) pat = true
    · simp [h]
    · simp [h]

theorem select_path_of_no_kernel : ∀ (files : List String),
    (∀ file ∈ files, ¬ "kernel".data <:+: file.data) → select_path files = "" := by
  intro files
  induction files with
  | nil => intro _; rfl
  | cons file rest ih =>
    intro h
    have h1 : find file.data "kernel".data = none :=
      (find_eq_none_iff _ _).mpr (h file (List.mem_cons_self _ _))
    simp only [select_path, h1, ne_eq, not_true_eq_false, if_false]
    exact ih (fun f hf => h f (List.mem_cons_of_mem _ hf))

end binding

/-! ## The properties -/

namespace physics

/-- C8: `set_collision_mode(m, c)` sets the mode to `m` and leaves the registry as it
is; the target becomes `c` when `m` is `ONE_TO_ALL` and `c` is not null, and keeps its
value otherwise (so `ONE_TO_ALL` with a null `c` keeps the old target). -/
theorem set_colision_mode_effect (m : Mode) (c : Ptr) (s : State) :
    (set_colision_mode m c s).collisions_mode = m ∧
    (set_colision_mode m c s).objects = s.objects ∧
    (set_colision_mode m c s).target =
      (if m = Mode.ONE_TO_ALL ∧ c ≠ nullptr then c else s.target) ∧
    (set_colision_mode Mode.ONE_TO_ALL nullptr s).target = s.target := by
  unfold set_colision_mode
  refine ⟨?_, ?_, ?_, ?_⟩
  · split <;> rfl
  · split <;> rfl
  · by_cases h1 : c ≠ nullptr <;> by_cases h2 : m = Mode.ONE_TO_ALL <;> simp [h1, h2]
  · simp

/-- C6 (counterexample): from the initial state, `set_collision_mode(ONE_TO_ALL, c)` with
an object `c` that was never registered leaves a non-null target that is not in the
registry. -/
theorem target_not_registered_after_set_mode :
    (run [Op.set_mode Mode.ONE_TO_ALL 1] initial).target ≠ nullptr ∧
    (run [Op.set_mode Mode.ONE_TO_ALL 1] initial).target ∉
      (run [Op.set_mode Mode.ONE_TO_ALL 1] initial).objects ∧
    ¬ target_registered (run [Op.set_mode Mode.ONE_TO_ALL 1] initial) := by
  refine ⟨by decide, by decide, ?_⟩
  intro h
  exact absurd (h (by decide)) (by decide)

/-- C6 (amended): in every state reached from the initial state by calls of
`register_object`, `unregister_object` and `set_collision_mode` in which each call
`set_collision_mode(ONE_TO_ALL, c)` with non-null `c` is made while `c` is registered, a
non-null target occurs in the registry; and in any state `unregister_object(c)` leaves
`c` neither in the registry nor, for non-null `c`, as target. -/
theorem target_registered_of_targets_registered (ops : List Op)
    (h : targets_registered ops initial = true) :
    target_registered (run ops initial) ∧
    ∀ (s : State) (c : Ptr), c ∉ (unregister_object c s).objects ∧
      (c ≠ nullptr → (unregister_object c s).target ≠ c) := by
  refine ⟨run_preserves_target_registered ops initial h ?_, ?_⟩
  · intro ht
    exact absurd rfl ht
  · intro s c
    unfold unregister_object
    simp only
    split
    · refine ⟨by simp [List.mem_filter], ?_⟩
      intro hc heq
      exact hc heq.symm
    · rename_i hne
      exact ⟨by simp [List.mem_filter], fun _ => hne⟩

/-- C6 (witness): register `1`, designate it, register `2`, unregister `1`. -/
theorem target_registered_of_targets_registered_witness :
    targets_registered
      [Op.register 1, Op.set_mode Mode.ONE_TO_ALL 1, Op.register 2, Op.unregister 1]
      initial = true ∧
    target_registered
      (run [Op.register 1, Op.set_mode Mode.ONE_TO_ALL 1, Op.register 2, Op.unregister 1]
        initial) :=
  ⟨by decide,
    (target_registered_of_targets_registered
      [Op.register 1, Op.set_mode Mode.ONE_TO_ALL 1, Op.register 2, Op.unregister 1]
      (by decide)).1⟩

/-- C2: after `set_collision_mode(ONE_TO_ALL, T)` and `unregister_object(T)` the target
is null and the mode still `ONE_TO_ALL`; when another collidable is still registered,
the following `do_collisions` calls `collision(nullptr, obj)` and fails on the null
target instead of doing nothing. -/
theorem do_collisions_dereferences_cleared_target (w : World) (s : State) (T : Ptr)
    (hT : T ≠ nullptr) (hreg : ∀ o ∈ s.objects, o ≠ nullptr)
    (hother : ∃ o ∈ s.objects, o ≠ T) :
    (unregister_object T (set_colision_mode Mode.ONE_TO_ALL T s)).target = nullptr ∧
    (unregister_object T (set_colision_mode Mode.ONE_TO_ALL T s)).collisions_mode =
      Mode.ONE_TO_ALL ∧
    do_collisions w (unregister_object T (set_colision_mode Mode.ONE_TO_ALL T s)) =
      Except.error Fault.null_dereference := by
  have hst : unregister_object T (set_colision_mode Mode.ONE_TO_ALL T s) =
      { target := nullptr, objects := s.objects.filter (fun o => o ≠ T),
        collisions_mode := Mode.ONE_TO_ALL } := by
    simp [unregister_object, set_colision_mode, hT]
  rw [hst]
  refine ⟨rfl, rfl, ?_⟩
  simp only [do_collisions]
  apply one_to_all_null_target
  · obtain ⟨o, ho, hne⟩ := hother
    intro hnil
    have : o ∈ s.objects.filter (fun o => o ≠ T) := by
      simp [List.mem_filter, ho, hne]
    rw [hnil] at this
    exact absurd this (List.not_mem_nil _)
  · intro o ho
    exact hreg o (List.mem_of_mem_filter ho)

/-- C2 (witness): the registry holds `1` and `2`, `1` is made the target and then
unregistered; the pass over `[2]` fails on the null target. -/
theorem do_collisions_dereferences_cleared_target_witness :
    do_collisions three_squares
      (unregister_object 1 (set_colision_mode Mode.ONE_TO_ALL 1
        (register_object 2 (register_object 1 initial)))) =
      Except.error Fault.null_dereference :=
  (do_collisions_dereferences_cleared_target three_squares
    (register_object 2 (register_object 1 initial)) 1 (by decide) (by decide)
    (by decide)).2.2

/-- C5 (counterexample): the bounding boxes of `1` and `2` are apart while their hit
boxes coincide; the first pair of hit boxes intersects in `(10,10,5,5)`, of area 25,
and `collision` returns the zero-area rectangle of the broad phase. -/
theorem collision_skips_hit_boxes_when_bounds_apart :
    first_pair_intersection (stray_hit_boxes.hit_boxes 1) (stray_hit_boxes.hit_boxes 2) =
      some (Rectangle.mk 10 10 5 5) ∧
    (Rectangle.mk 10 10 5 5).area = 25 ∧
    collision stray_hit_boxes 1 2 = Except.ok (Rectangle.mk 0 0 0 0) ∧
    collision stray_hit_boxes 1 2 ≠ Except.ok (Rectangle.mk 10 10 5 5) := by
  decide

/-- C5 (amended): for non-null `A` and `B` whose bounding boxes intersect with non-zero
area, whenever some pair of `hit_boxes(A) × hit_boxes(B)` has an intersection of
non-zero area, `collision(A,B)` returns the intersection of the first such pair (`A`'s
hit boxes outside, `B`'s inside). -/
theorem collision_returns_first_pair (w : World) (a b : Ptr) (t : Rectangle)
    (ha : a ≠ nullptr) (hb : b ≠ nullptr)
    (hbb : ((w.bounding_box a).intersection (w.bounding_box b)).area ≠ 0)
    (hfirst : first_pair_intersection (w.hit_boxes a) (w.hit_boxes b) = some t) :
    collision w a b = Except.ok t := by
  rw [collision_of_nonnull w ha hb, if_neg hbb, first_hit_eq_first_pair_intersection,
    hfirst]

/-- C5 (witness): bounding boxes `(0,0,10,10)` and `(5,5,10,10)`, each object with its
bounding box as hit box, give `(5,5,5,5)`, of area 25. -/
theorem collision_returns_first_pair_witness :
    ((three_squares.bounding_box 1).intersection (three_squares.bounding_box 2)).area ≠ 0 ∧
    first_pair_intersection (three_squares.hit_boxes 1) (three_squares.hit_boxes 2) =
      some (Rectangle.mk 5 5 5 5) ∧
    collision three_squares 1 2 = Except.ok (Rectangle.mk 5 5 5 5) ∧
    (Rectangle.mk 5 5 5 5).area = 25 :=
  ⟨by decide, by decide,
    collision_returns_first_pair three_squares 1 2 (Rectangle.mk 5 5 5 5) (by decide)
      (by decide) (by decide) (by decide), by decide⟩

/-- C9: in `ONE_TO_ALL` mode with target `T` and a registry holding `T`, `X` and `Y`
once each (in any order), where `collision(T,X)` has non-zero area and `collision(T,Y)`
has zero area, one call of `do_collisions` makes exactly the calls
`T.on_collision(X, r)` and then `X.on_collision(T, r)` with `r = collision(T,X)`, and
no other. (That `collision` returns for these pairs means that no pointer is null.) -/
theorem do_collisions_one_to_all_single_hit (w : World) (s : State) (T X Y : Ptr)
    (r rY : Rectangle) (hTX : T ≠ X) (hTY : T ≠ Y) (hXY : X ≠ Y)
    (hmode : s.collisions_mode = Mode.ONE_TO_ALL) (htarget : s.target = T)
    (hobjs : s.objects.Perm [T, X, Y])
    (hr : collision w T X = Except.ok r) (hrnz : r.area ≠ 0)
    (hrY : collision w T Y = Except.ok rY) (hrYz : rY.area = 0) :
    do_collisions w s = Except.ok [Callback.mk T X r, Callback.mk X T r] := by
  have hpos : 0 < r.area := by
    have := collision_area_nonneg hr
    omega
  unfold do_collisions
  rw [hmode, htarget]
  exact one_to_all_three w T X Y r rY s.objects hTX hTY hXY hobjs hr hpos hrY hrYz

/-- C9 (witness): target `1`, registry `[2, 3, 1]`; `2` overlaps `1` in `(5,5,5,5)` and
`3` is apart. -/
theorem do_collisions_one_to_all_single_hit_witness :
    collision three_squares 1 2 = Except.ok (Rectangle.mk 5 5 5 5) ∧
    collision three_squares 1 3 = Except.ok (Rectangle.mk 0 0 0 0) ∧
    do_collisions three_squares
      { target := 1, objects := [2, 3, 1], collisions_mode := Mode.ONE_TO_ALL } =
      Except.ok [Callback.mk 1 2 (Rectangle.mk 5 5 5 5),
        Callback.mk 2 1 (Rectangle.mk 5 5 5 5)] :=
  ⟨by decide, by decide,
    do_collisions_one_to_all_single_hit three_squares
      { target := 1, objects := [2, 3, 1], collisions_mode := Mode.ONE_TO_ALL } 1 2 3
      (Rectangle.mk 5 5 5 5) (Rectangle.mk 0 0 0 0) (by decide) (by decide) (by decide)
      rfl rfl (by decide) (by decide) (by decide) (by decide) (by decide)⟩

/-- C1 (counterexample): with `1`, `2`, `3` registered in `ALL_TO_ALL` mode, `1` and `2`
overlapping and `3` apart from both, one call of `do_collisions` calls
`1.on_collision(2, _)` twice and `2.on_collision(1, _)` twice, not once. -/
theorem all_to_all_calls_twice :
    collision three_squares 1 2 = Except.ok (Rectangle.mk 5 5 5 5) ∧
    collision three_squares 2 1 = Except.ok (Rectangle.mk 5 5 5 5) ∧
    (Rectangle.mk 5 5 5 5).area ≠ 0 ∧
    collision three_squares 1 3 = Except.ok (Rectangle.mk 0 0 0 0) ∧
    collision three_squares 3 1 = Except.ok (Rectangle.mk 0 0 0 0) ∧
    collision three_squares 2 3 = Except.ok (Rectangle.mk 0 0 0 0) ∧
    collision three_squares 3 2 = Except.ok (Rectangle.mk 0 0 0 0) ∧
    do_collisions three_squares
        (register_object 3 (register_object 2 (register_object 1 initial))) =
      Except.ok [Callback.mk 1 2 (Rectangle.mk 5 5 5 5),
        Callback.mk 2 1 (Rectangle.mk 5 5 5 5), Callback.mk 2 1 (Rectangle.mk 5 5 5 5),
        Callback.mk 1 2 (Rectangle.mk 5 5 5 5)] ∧
    calls_on [Callback.mk 1 2 (Rectangle.mk 5 5 5 5),
        Callback.mk 2 1 (Rectangle.mk 5 5 5 5), Callback.mk 2 1 (Rectangle.mk 5 5 5 5),
        Callback.mk 1 2 (Rectangle.mk 5 5 5 5)] 1 2 ≠ 1 := by
  decide

/-- C1 (amended): in `ALL_TO_ALL` mode, for a registry holding three distinct
collidables `A`, `B`, `C` once each (in any order) where `collision(A,B)` and
`collision(B,A)` have non-zero area and every pair involving `C` has zero area, one
call of `do_collisions` makes four calls: `A.on_collision(B,_)` exactly twice,
`B.on_collision(A,_)` exactly twice, and none on `C` or about `C`. -/
theorem do_collisions_all_to_all_twice (w : World) (s : State) (A B C : Ptr)
    (rAB rBA rAC rCA rBC rCB : Rectangle) (hAB : A ≠ B) (hAC : A ≠ C) (hBC : B ≠ C)
    (hmode : s.collisions_mode = Mode.ALL_TO_ALL) (hobjs : s.objects.Perm [A, B, C])
    (hab : collision w A B = Except.ok rAB) (habnz : rAB.area ≠ 0)
    (hba : collision w B A = Except.ok rBA) (hbanz : rBA.area ≠ 0)
    (hac : collision w A C = Except.ok rAC) (hacz : rAC.area = 0)
    (hca : collision w C A = Except.ok rCA) (hcaz : rCA.area = 0)
    (hbc : collision w B C = Except.ok rBC) (hbcz : rBC.area = 0)
    (hcb : collision w C B = Except.ok rCB) (hcbz : rCB.area = 0) :
    ∃ log, do_collisions w s = Except.ok log ∧ log.length = 4 ∧
      calls_on log A B = 2 ∧ calls_on log B A = 2 ∧
      ∀ c ∈ log, c.receiver ≠ C ∧ c.other ≠ C := by
  have habp : 0 < rAB.area := by
    have := collision_area_nonneg hab
    omega
  have hbap : 0 < rBA.area := by
    have := collision_area_nonneg hba
    omega
  have hBA := hAB.symm
  unfold do_collisions
  rw [hmode]
  rcases all_to_all_three w A B C rAB rBA rAC rCA rBC rCB s.objects hAB hAC hBC hobjs
      hab habp hba hbap hac hacz hca hcaz hbc hbcz hcb hcbz with h | h <;>
    exact ⟨_, h, rfl, by simp [calls_on, hAB, hBA], by simp [calls_on, hAB, hBA],
      by simp [hAC, hBC]⟩

/-- C1 (witness): the registry `[3, 1, 2]` of the three squares. -/
theorem do_collisions_all_to_all_twice_witness :
    ∃ log, do_collisions three_squares
        { target := nullptr, objects := [3, 1, 2], collisions_mode := Mode.ALL_TO_ALL } =
        Except.ok log ∧ log.length = 4 ∧
      calls_on log 1 2 = 2 ∧ calls_on log 2 1 = 2 ∧
      ∀ c ∈ log, c.receiver ≠ 3 ∧ c.other ≠ 3 :=
  do_collisions_all_to_all_twice three_squares
    { target := nullptr, objects := [3, 1, 2], collisions_mode := Mode.ALL_TO_ALL } 1 2 3
    (Rectangle.mk 5 5 5 5) (Rectangle.mk 5 5 5 5) (Rectangle.mk 0 0 0 0)
    (Rectangle.mk 0 0 0 0) (Rectangle.mk 0 0 0 0) (Rectangle.mk 0 0 0 0)
    (by decide) (by decide) (by decide) rfl (by decide)
    (by decide) (by decide) (by decide) (by decide) (by decide) (by decide)
    (by decide) (by decide) (by decide) (by decide) (by decide) (by decide)

end physics

/-- C7 (counterexample): after `set_collision_mode(ONE_TO_ALL, 1)` on the initial state,
`1` is the target and is not in the registry; `unregister_object(1)` then changes the
state, setting the target to null. -/
theorem unregister_object_clears_unregistered_target :
    (1 : Ptr) ∉ (physics.set_colision_mode physics.Mode.ONE_TO_ALL 1 physics.initial).objects ∧
    (physics.set_colision_mode physics.Mode.ONE_TO_ALL 1 physics.initial).target = 1 ∧
    (physics.unregister_object 1
      (physics.set_colision_mode physics.Mode.ONE_TO_ALL 1 physics.initial)).target
        = nullptr ∧
    physics.unregister_object 1
      (physics.set_colision_mode physics.Mode.ONE_TO_ALL 1 physics.initial) ≠
      physics.set_colision_mode physics.Mode.ONE_TO_ALL 1 physics.initial := by
  decide

/-- C7 (amended): for a reference `x` that does not occur in the registry concerned,
`unregister_translator(x)` and `unregister_listener(x)` each leave the state of the
pipeline unchanged, and `unregister_object(x)` leaves the registry (with its order) and
the mode unchanged and the target too unless the target is `x`, in which case the
target becomes null. Each of the three needs only that `x` is not in its own
registry. -/
theorem unregister_of_not_registered (e : event.State) (p : physics.State) (x : Ptr) :
    (x ∉ e.translators → event.unregister_translator x e = e) ∧
    (x ∉ e.listeners → event.unregister_listener x e = e) ∧
    (x ∉ p.objects →
      physics.unregister_object x p =
        { p with target := if p.target = x then nullptr else p.target }) := by
  have hf : ∀ (l : List Ptr), x ∉ l → l.filter (fun o => decide (o ≠ x)) = l := by
    intro l hx
    rw [List.filter_eq_self]
    intro a ha
    simp only [ne_eq, decide_eq_true_eq]
    intro h
    exact hx (h ▸ ha)
  refine ⟨?_, ?_, ?_⟩
  · intro ht
    unfold event.unregister_translator
    split
    · rw [hf _ ht]
    · rfl
  · intro hl
    unfold event.unregister_listener
    split
    · rw [hf _ hl]
    · rfl
  · intro ho
    unfold physics.unregister_object
    simp only [hf _ ho]
    split <;> rfl

/-- C7 (witness): `3` is a registered listener and not a translator, `1` a registered
translator and not a listener, and `3` is neither a registered collidable nor the
target. -/
theorem unregister_of_not_registered_witness :
    event.unregister_translator 3 { translators := [1, 2], listeners := [1, 2, 3] } =
      { translators := [1, 2], listeners := [1, 2, 3] } ∧
    event.unregister_listener 1 { translators := [1, 2], listeners := [2, 3] } =
      { translators := [1, 2], listeners := [2, 3] } ∧
    physics.unregister_object 3
        { target := 1, objects := [1, 2], collisions_mode := physics.Mode.ONE_TO_ALL } =
      { target := 1, objects := [1, 2], collisions_mode := physics.Mode.ONE_TO_ALL } :=
  ⟨(unregister_of_not_registered { translators := [1, 2], listeners := [1, 2, 3] }
      physics.initial 3).1 (by decide),
    (unregister_of_not_registered { translators := [1, 2], listeners := [2, 3] }
      physics.initial 1).2.1 (by decide),
    (unregister_of_not_registered { translators := [], listeners := [] }
      { target := 1, objects := [1, 2], collisions_mode := physics.Mode.ONE_TO_ALL }
      3).2.2 (by decide)⟩

namespace event

/-- C3 (counterexample): translator `1` yields `[(5,"a")]` and translator `2` yields
`[(3,"b")]` for the same batch, which both leave untouched; the listener receives the
event of timestamp 3 first, while the concatenation `T1(B) ++ T2(B)` has the event of
timestamp 5 first. -/
theorem dispatch_merges_by_timestamp :
    late_then_early.pending_events 0 ≠ [] ∧
    (late_then_early.translate 1 (late_then_early.pending_events 0)).1 ++
        (late_then_early.translate 2 (late_then_early.pending_events 0)).1 =
      [(5, "a"), (3, "b")] ∧
    (dispatch_pending_events late_then_early { translators := [1, 2], listeners := [7] }
        0 ()).1.map Delivery.event = [(3, "b"), (5, "a")] ∧
    (dispatch_pending_events late_then_early { translators := [1, 2], listeners := [7] }
        0 ()).1.map Delivery.event ≠
      (late_then_early.translate 1 (late_then_early.pending_events 0)).1 ++
        (late_then_early.translate 2 (late_then_early.pending_events 0)).1 := by
  decide

/-- C3 (amended): for a non-empty raw batch `B` and registered translators `T1..Tn`
that leave the batch as they received it, if no event produced by a later translator
compares less (by timestamp, then serialised text) than an event produced by an
earlier one, the sequence of game events that `dispatch_pending_events` delivers to the
listeners is the ordered concatenation `T1(B) ++ T2(B) ++ ... ++ Tn(B)`. -/
theorem dispatch_delivers_concatenation {Raw GE σ : Type} (env : Env Raw GE σ)
    (s : State) (now : Nat) (st : σ)
    (hB : env.pending_events now ≠ [])
    (hkeep : ∀ t ∈ s.translators,
      (env.translate t (env.pending_events now)).2 = env.pending_events now)
    (hsorted : List.Pairwise
      (fun xs ys => ∀ a ∈ xs, ∀ b ∈ ys, game_event_lt b a = false)
      (s.translators.map (fun t => (env.translate t (env.pending_events now)).1))) :
    translate_loop env s.translators (env.pending_events now) [] =
      (s.translators.map
        (fun t => (env.translate t (env.pending_events now)).1)).flatten ∧
    dispatch_pending_events env s now st =
      dispatch_loop env s.listeners
        (s.translators.map
          (fun t => (env.translate t (env.pending_events now)).1)).flatten st := by
  have hloop := translate_loop_eq_join env (env.pending_events now) hB s.translators []
    hkeep (by
      rw [List.pairwise_cons]
      exact ⟨fun ys _ a ha => absurd ha (List.not_mem_nil a), hsorted⟩)
  rw [List.nil_append] at hloop
  refine ⟨hloop, ?_⟩
  have hne : (env.pending_events now).isEmpty = false := by
    cases h : env.pending_events now with
    | nil => exact absurd h hB
    | cons _ _ => rfl
  simp only [dispatch_pending_events, hne, Bool.false_eq_true, if_false, hloop]

/-- C3 (witness): translator `1` yields the event of timestamp 3 and translator `2` the
event of timestamp 5; they are delivered in that order. -/
theorem dispatch_delivers_concatenation_witness :
    translate_loop early_then_late [1, 2] (early_then_late.pending_events 0) [] =
      [(3, "b"), (5, "a")] ∧
    (dispatch_pending_events early_then_late { translators := [1, 2], listeners := [1] }
        0 0).1.map Delivery.event = [(3, "b"), (5, "a")] := by
  have h := dispatch_delivers_concatenation early_then_late
    { translators := [1, 2], listeners := [1] } 0 0 (by decide) (by decide) (by decide)
  refine ⟨h.1, ?_⟩
  rw [h.2]
  decide

/-- C4 (counterexample): same translator, same listeners `1`, `2`, `3`, same events
`E` (timestamp 3) then `F` (timestamp 5). When listener `1` handles `E`, listener `2`
is not called for `E`, does not handle `F`, and `F` reaches listener `3`; when nobody
handles `E`, listener `2` has been called for `E`, handles `F`, and `F` does not reach
listener `3`. The listeners that receive `F` depend on whether `E` was handled. -/
theorem receivers_depend_on_earlier_handling :
    (dispatch_pending_events remembering_listener
        { translators := [1], listeners := [1, 2, 3] } 0 (true, 0)).1 =
      [Delivery.mk 1 (3, "b") true,
        Delivery.mk 1 (5, "a") false, Delivery.mk 2 (5, "a") false,
        Delivery.mk 3 (5, "a") false] ∧
    (dispatch_pending_events remembering_listener
        { translators := [1], listeners := [1, 2, 3] } 0 (false, 0)).1 =
      [Delivery.mk 1 (3, "b") false, Delivery.mk 2 (3, "b") false,
        Delivery.mk 3 (3, "b") false,
        Delivery.mk 1 (5, "a") false, Delivery.mk 2 (5, "a") true] ∧
    (((dispatch_pending_events remembering_listener
        { translators := [1], listeners := [1, 2, 3] } 0 (true, 0)).1.filter
          (fun d => decide (d.event = (5, "a")))).map Delivery.listener = [1, 2, 3]) ∧
    (((dispatch_pending_events remembering_listener
        { translators := [1], listeners := [1, 2, 3] } 0 (false, 0)).1.filter
          (fun d => decide (d.event = (5, "a")))).map Delivery.listener = [1, 2]) := by
  decide

/-- C4 (amended): when the dispatched sequence is `pre ++ E :: post`, the calls of
`on_event` made by `dispatch_pending_events` are those for `pre`, then those for `E`,
then those for `post`, each event being delivered over the whole registry from its
first listener. The calls for `E` are the first `k` of the calls that a walk over all
the listeners would make (each entry being what `on_event` returns in the state left
by the calls before it), they go to `L1..Lk` in registration order, and either `Lk`
returned handled and the ones before it did not, or `k = m` and none returned handled;
no listener after `Lk` is called for `E`, and the listeners are left in the state
after these `k` calls. When what a listener returns depends on the listener and the
event only, every event of the tick goes to the listeners up to the first one that
handles that event, so the listeners that receive another event do not depend on
whether `E` was handled. -/
theorem dispatch_stops_at_first_handler {Raw GE σ : Type} (env : Env Raw GE σ)
    (s : State) (now : Nat) (st : σ) (pre post : List game_event_t) (E : game_event_t)
    (hB : env.pending_events now ≠ [])
    (hseq : translate_loop env s.translators (env.pending_events now) [] =
      pre ++ E :: post) :
    dispatch_pending_events env s now st =
      ((dispatch_loop env s.listeners pre st).1 ++
        (deliver env (env.deserialize E.2 E.1) s.listeners
          (dispatch_loop env s.listeners pre st).2).1 ++
        (dispatch_loop env s.listeners post
          (deliver env (env.deserialize E.2 E.1) s.listeners
            (dispatch_loop env s.listeners pre st).2).2).1,
       (dispatch_loop env s.listeners post
          (deliver env (env.deserialize E.2 E.1) s.listeners
            (dispatch_loop env s.listeners pre st).2).2).2) ∧
    (∃ k, k ≤ s.listeners.length ∧
      (deliver env (env.deserialize E.2 E.1) s.listeners
        (dispatch_loop env s.listeners pre st).2).1 =
        (call_all env (env.deserialize E.2 E.1) s.listeners
          (dispatch_loop env s.listeners pre st).2).take k ∧
      (deliver env (env.deserialize E.2 E.1) s.listeners
        (dispatch_loop env s.listeners pre st).2).2 =
        state_after env (env.deserialize E.2 E.1) (s.listeners.take k)
          (dispatch_loop env s.listeners pre st).2 ∧
      (deliver env (env.deserialize E.2 E.1) s.listeners
        (dispatch_loop env s.listeners pre st).2).1.map Delivery.listener =
        s.listeners.take k ∧
      ((∃ j, k = j + 1 ∧
          (deliver env (env.deserialize E.2 E.1) s.listeners
            (dispatch_loop env s.listeners pre st).2).1.map Delivery.handled =
            List.replicate j false ++ [true]) ∨
        (k = s.listeners.length ∧
          (deliver env (env.deserialize E.2 E.1) s.listeners
            (dispatch_loop env s.listeners pre st).2).1.map Delivery.handled =
            List.replicate k false))) ∧
    ∀ h : Ptr → GE → Bool, (∀ l e st1, (env.on_event l e st1).1 = h l e) →
      (dispatch_pending_events env s now st).1 =
        (pre ++ E :: post).flatMap
          (fun ev => served h (env.deserialize ev.2 ev.1) s.listeners) := by
  have hne : (env.pending_events now).isEmpty = false := by
    cases h : env.pending_events now with
    | nil => exact absurd h hB
    | cons _ _ => rfl
  refine ⟨?_, deliver_first_handler env _ _ _, ?_⟩
  · simp only [dispatch_pending_events, hne, Bool.false_eq_true, if_false, hseq]
    rw [dispatch_loop_append]
    simp only [dispatch_loop, List.append_assoc]
  · intro h hh
    simp only [dispatch_pending_events, hne, Bool.false_eq_true, if_false, hseq]
    exact dispatch_loop_eq_served env h hh s.listeners _ st

/-- C4 (witness): listeners `1`, `2`, `3`, whose answers depend on the listener and the
event only; the event of timestamp 3 is handled by listener `2` and never reaches
listener `3`; the event of timestamp 5 that follows is handled by nobody and reaches
all three. -/
theorem dispatch_stops_at_first_handler_witness :
    dispatch_pending_events early_then_late
        { translators := [1, 2], listeners := [1, 2, 3] } 0 0 =
      ([Delivery.mk 1 (3, "b") false, Delivery.mk 2 (3, "b") true,
        Delivery.mk 1 (5, "a") false, Delivery.mk 2 (5, "a") false,
        Delivery.mk 3 (5, "a") false], 5) ∧
    (dispatch_pending_events early_then_late
        { translators := [1, 2], listeners := [1, 2, 3] } 0 0).1 =
      served (fun l e => decide (l = 2 ∧ e.1 = 3)) (3, "b") [1, 2, 3] ++
        served (fun l e => decide (l = 2 ∧ e.1 = 3)) (5, "a") [1, 2, 3] := by
  have h := dispatch_stops_at_first_handler early_then_late
    { translators := [1, 2], listeners := [1, 2, 3] } 0 0 [] [(5, "a")] (3, "b")
    (by decide) (by decide)
  refine ⟨?_, ?_⟩
  · rw [h.1]
    decide
  · rw [h.2.2 (fun l e => decide (l = 2 ∧ e.1 = 3)) (fun _ _ _ => rfl)]
    decide

end event

namespace binding

/-- C10: when no file name of the listing of the plugin directory contains `"kernel"`,
the constructor throws the exception "Kernel not found in libs dir" (the
`ConfigurationError` of the specification), and the listing is the only call it has
made: neither `load_lib` nor `symbol("create_kernel")` is called. -/
theorem Engine_fails_without_kernel_file (host : Host)
    (h : ∀ file ∈ host.list_files "libs", ¬ "kernel".data <:+: file.data) :
    Engine host =
      ([Call.list_files "libs"],
        Except.error (Exception.mk "Kernel not found in libs dir")) ∧
    (∀ path, Call.load_lib path ∉ (Engine host).1) ∧
    ∀ name, Call.symbol name ∉ (Engine host).1 := by
  have hE : Engine host =
      ([Call.list_files "libs"],
        Except.error (Exception.mk "Kernel not found in libs dir")) := by
    unfold Engine
    simp only [select_path_of_no_kernel _ h]
    rfl
  rw [hE]
  exact ⟨rfl, by simp, by simp⟩

/-- C10 (witness): a directory that holds `libvideo.so` and `README`. -/
theorem Engine_fails_without_kernel_file_witness :
    Engine { list_files := fun _ => ["libvideo.so", "README"], load_lib := fun _ => some 1,
             symbol := fun _ _ => some 1, create := fun _ => some 1 } =
      ([Call.list_files "libs"],
        Except.error (Exception.mk "Kernel not found in libs dir")) :=
  (Engine_fails_without_kernel_file
    { list_files := fun _ => ["libvideo.so", "README"], load_lib := fun _ => some 1,
      symbol := fun _ _ => some 1, create := fun _ => some 1 }
    (by decide)).1

end binding

end ijengine
